import Mathlib

/-!
Verification of `webhook/document_extract.py`.

The file embeds the three functions of the source module —
`clear_ocr_output_folder`, `async_document_extract` and
`get_ocr_output_from_bucket` — as Lean functions over an explicit model of
the cloud-storage state (a bucket is a list of blobs), and proves the
behavioural properties stated about them.

Modelling conventions:
* A bucket is a `List Blob` in the order the storage service lists it; the
  service's `list_blobs(prefix=...)` is a filter on that list.
* A blob's content is the JSON value produced by `json.loads` on its bytes
  (the stdlib parser is external to the module under verification).
* Code paths on which Python raises (`AttributeError` on a failed regex
  match or a `.get` on a non-dict, `TypeError` on `+=` with a non-string)
  are modelled with `Except String`.
* `uuid.uuid4().hex` is an external source of randomness; the generated
  identifier is passed to the model as an explicit argument.
* The effectful body of `async_document_extract` is straight-line; it is
  embedded as the trace of the external calls it performs, in order.
-/

/-- JSON values, the results of `json.loads`. Objects are association
lists with distinct keys, as Python dicts. -/
inductive Json where
  | null : Json
  | bool : Bool → Json
  | num : Int → Json
  | str : String → Json
  | arr : List Json → Json
  | obj : List (String × Json) → Json

/-- Dictionary lookup: `d[k]` / `k in d` on a Python dict. -/
def lookupField : List (String × Json) → String → Option Json
  | [], _ => none
  | (k, v) :: rest, key => if k = key then some v else lookupField rest key

/-- `needle in hay` for a Python string: substring containment. -/
def charsContainSub (needle : List Char) : List Char → Bool
  | [] => needle.isEmpty
  | c :: rest => List.isPrefixOf needle (c :: rest) || charsContainSub needle rest

/-- `s.startswith(p)` on Python strings, and the blob-name test performed
by a `list_blobs(prefix=p)` listing. -/
def strStartsWith (s p : String) : Bool :=
  List.isPrefixOf p.data s.data

/-- `s.endswith(p)` on Python strings. -/
def strEndsWith (s p : String) : Bool :=
  List.isSuffixOf p.data s.data

/-- A stored object: a name and the JSON value its bytes decode to. -/
structure Blob where
  name : String
  content : Json

/-- `bucket.list_blobs(prefix=pfx)`: the objects of the bucket whose names
start with `pfx`, in the bucket's listing order. -/
def list_blobs (bucket : List Blob) (pfx : String) : List Blob :=
  bucket.filter (fun b => strStartsWith b.name pfx)

/-- `blob.delete()` for the object with the given name: the bucket without
that object. -/
def deleteBlobNamed (st : List Blob) (n : String) : List Blob :=
  st.filter (fun b => !(n == b.name))

/-- `clear_ocr_output_folder`: list the blobs with the given prefix and
delete each one in turn (`for blob in blobs: blob.delete()`). The result
is the bucket state after the loop. -/
def clear_ocr_output_folder (bucket : List Blob) (pfx : String) : List Blob :=
  (list_blobs bucket pfx).foldl (fun st b => deleteBlobNamed st b.name) bucket

/-- Split a character list at the first occurrence of `stop`: the run of
characters before it, and the remainder beginning with `stop` (or `[]`
when `stop` does not occur). -/
def takeUntil (stop : Char) : List Char → List Char × List Char
  | [] => ([], [])
  | c :: cs =>
    if c = stop then ([], c :: cs)
    else
      let (a, b) := takeUntil stop cs
      (c :: a, b)

/-- The part of `get_ocr_output_from_bucket`'s URI regex after the literal
scheme: `([^/]+)` is the maximal nonempty run of characters other than
`/`, then a literal `/`, then `(.+)` is the maximal nonempty run of
characters other than a newline. -/
def parseAfterScheme (rest : List Char) : Option (String × String) :=
  match takeUntil '/' rest with
  | (b, _ :: tail) =>
    if b = [] then none
    else
      let p := (takeUntil '\n' tail).fst
      if p = [] then none else some (String.mk b, String.mk p)
  | (_, []) => none

/-- `re.match(r"gs://([^/]+)/(.+)", s)`: anchored at the start of `s`,
requiring the literal `gs://` followed by the two groups. Returns
`(group(1), group(2))` on success. -/
def parseGsUriChars : List Char → Option (String × String)
  | 'g' :: 's' :: ':' :: '/' :: '/' :: rest => parseAfterScheme rest
  | _ => none

/-- The URI parse performed at the top of `get_ocr_output_from_bucket`. -/
def parseGsUri (s : String) : Option (String × String) :=
  parseGsUriChars s.data

/-- Decimal value of a digit run, as Python's `int` on the matched group. -/
def digitsToNat (ds : List Char) : Nat :=
  ds.foldl (fun n c => 10 * n + (c.toNat - '0'.toNat)) 0

/-- Attempt of the regex `output-(\d+)-to-\d+` at the head of `cs`: the
literal `output-`, a maximal nonempty digit run (group 1), the literal
`-to-`, and at least one digit. Returns the value of group 1. -/
def matchOutputAt (cs : List Char) : Option Nat :=
  if List.isPrefixOf ['o', 'u', 't', 'p', 'u', 't', '-'] cs then
    match (cs.drop 7).span Char.isDigit with
    | (ds, rest) =>
      if ds.isEmpty then none
      else if List.isPrefixOf ['-', 't', 'o', '-'] rest then
        match (rest.drop 4).head? with
        | some d => if d.isDigit then some (digitsToNat ds) else none
        | none => none
      else none
  else none

/-- `re.search(r'output-(\d+)-to-\d+', s)`: the leftmost position at which
the pattern matches, with the value of group 1 there. -/
def searchOutput : List Char → Option Nat
  | [] => none
  | c :: cs =>
    match matchOutputAt (c :: cs) with
    | some n => some n
    | none => searchOutput cs

/-- `extract_page_number`: the starting page parsed from the blob name,
or `-1` when the pattern does not occur in the name. -/
def extract_page_number (b : Blob) : Int :=
  match searchOutput b.name.data with
  | some n => (n : Int)
  | none => -1

/-- The comparison used by `sorted(blobs, key=extract_page_number)`. -/
def pageLe (a b : Blob) : Prop :=
  extract_page_number a ≤ extract_page_number b

instance : DecidableRel pageLe :=
  fun a b => inferInstanceAs (Decidable (extract_page_number a ≤ extract_page_number b))

/-- `sorted(blobs, key=extract_page_number)`: Python's `sorted` is a
stable ascending sort, embedded as insertion sort with `pageLe`. -/
def sortBlobs (l : List Blob) : List Blob :=
  List.insertionSort pageLe l

/-- `annotation.get('text', '')` followed by `complete_text += ...`:
a missing text field contributes the empty string; a non-dict value of
`fullTextAnnotation` or a non-string text raises. -/
def annText (ann : Json) : Except String String :=
  match ann with
  | .obj fs =>
    match lookupField fs "text" with
    | none => .ok ""
    | some (.str s) => .ok s
    | some _ => .error "TypeError: can only concatenate str"
  | _ => .error "AttributeError: no attribute get"

/-- One iteration of the inner loop: `if 'fullTextAnnotation' in
page_response:` then read the annotation's text. Python's `in` works on
dicts (key test), lists (membership) and strings (substring test) and
raises `TypeError` otherwise; a hit on a list or string element raises at
the subsequent indexing. -/
def pageResponseText (pr : Json) : Except String String :=
  match pr with
  | .obj fs =>
    match lookupField fs "fullTextAnnotation" with
    | none => .ok ""
    | some ann => annText ann
  | .arr xs =>
    if xs.any (fun x => match x with | .str s => s = "fullTextAnnotation" | _ => false) then
      .error "TypeError: list indices must be integers"
    else .ok ""
  | .str s =>
    if charsContainSub "fullTextAnnotation".data s.data then
      .error "TypeError: string indices must be integers"
    else .ok ""
  | _ => .error "TypeError: argument of type is not iterable"

/-- `for page_response in X`: the elements Python iteration yields, or a
`TypeError` when `X` is not iterable. A string yields its characters and
a dict yields its keys. -/
def iterElems : Json → Except String (List Json)
  | .arr xs => .ok xs
  | .str s => .ok (s.data.map (fun c => .str (String.mk [c])))
  | .obj fs => .ok (fs.map (fun kv => .str kv.fst))
  | _ => .error "TypeError: object is not iterable"

/-- The inner loop over the page responses of one blob, accumulating
`complete_text` from `acc`. -/
def concatResponses : List Json → String → Except String String
  | [], acc => .ok acc
  | pr :: rest, acc =>
    match pageResponseText pr with
    | .error e => .error e
    | .ok t => concatResponses rest (acc ++ t)

/-- The per-blob body of the outer loop: `json.loads`, then
`response.get('responses', [])` (an `AttributeError` when the decoded
value is not a dict), then the inner loop. -/
def blobToText (content : Json) : Except String String :=
  match content with
  | .obj fs =>
    match iterElems ((lookupField fs "responses").getD (.arr [])) with
    | .error e => .error e
    | .ok prs => concatResponses prs ""
  | _ => .error "AttributeError: no attribute get"

/-- The outer loop of `get_ocr_output_from_bucket` over the sorted blobs:
names ending in `/` are skipped (`# Filter out directories`), every other
blob's content is decoded and appended. -/
def collectText : List Blob → String → Except String String
  | [], acc => .ok acc
  | b :: rest, acc =>
    if strEndsWith b.name "/" then collectText rest acc
    else
      match blobToText b.content with
      | .error e => .error e
      | .ok t => collectText rest (acc ++ t)

/-- `get_ocr_output_from_bucket`: parse the destination URI (an
`AttributeError` when the regex does not match, as `match.group(2)` is a
method call on `None`), list the bucket under the URI's path, sort by
`extract_page_number`, and concatenate the text of every non-folder
blob. -/
def get_ocr_output_from_bucket (gcs_destination_uri : String) (bucket : List Blob) :
    Except String String :=
  match parseGsUri gcs_destination_uri with
  | none => .error "AttributeError: no attribute group"
  | some (_, pfx) => collectText (sortBlobs (list_blobs bucket pfx)) ""

/-- The feature of the single `vision.Feature` the request carries. -/
inductive FeatureType where
  | documentTextDetection : FeatureType

/-- The `vision.AsyncAnnotateFileRequest` built by
`async_document_extract`: features, input URI and mime type, output URI,
batch size. -/
structure AsyncRequest where
  features : List FeatureType
  inputUri : String
  mimeType : String
  outputUri : String
  batchSize : Nat

/-- One external call performed by `async_document_extract`, in program
order. -/
inductive Event where
  | cleanup : String → String → Event
  | submit : AsyncRequest → Event
  | wait : Nat → Event
  | collect : String → String → Event

/-- `async_document_extract`, embedded as the ordered trace of the
external calls its straight-line body performs. `unique_id` stands for
`uuid.uuid4().hex`, the externally generated random identifier. -/
def async_document_extract (bucket name output_bucket unique_id : String)
    (timeout : Nat := 420) : List Event :=
  let pfx := "ocr/" ++ unique_id
  let gcs_source_uri := "gs://" ++ bucket ++ "/" ++ name
  let gcs_destination_uri := "gs://" ++ output_bucket ++ "/" ++ pfx ++ "/"
  [Event.cleanup output_bucket pfx,
   Event.submit
     { features := [FeatureType.documentTextDetection]
       inputUri := gcs_source_uri
       mimeType := "application/pdf"
       outputUri := gcs_destination_uri
       batchSize := 2 },
   Event.wait timeout,
   Event.collect gcs_destination_uri output_bucket]

/-- Recogniser for cleanup events in a trace. -/
def isCleanupEvent : Event → Bool
  | .cleanup _ _ => true
  | _ => false

/-- Recogniser for submission events in a trace. -/
def isSubmitEvent : Event → Bool
  | .submit _ => true
  | _ => false

/-- Recogniser for wait events in a trace. -/
def isWaitEvent : Event → Bool
  | .wait _ => true
  | _ => false

instance : IsTotal Blob pageLe :=
  ⟨fun a b => Int.le_total (extract_page_number a) (extract_page_number b)⟩

instance : IsTrans Blob pageLe :=
  ⟨fun _ _ _ h₁ h₂ => Int.le_trans h₁ h₂⟩

/-- C1: the concatenation order used by `get_ocr_output_from_bucket` is
ascending in the start-page number parsed from `output-<N>-to-<M>` in each
blob name; a name without such a substring gets order key `-1` and so
sorts before every blob with a parseable start page, e.g.
`ocr/x/manifest.json` before `ocr/x/output-1-to-2.json` regardless of
listing order. -/
theorem C1_concat_order_ascending :
    (∀ l : List Blob, List.Sorted pageLe (sortBlobs l)) ∧
    (∀ b : Blob, searchOutput b.name.data = none → extract_page_number b = -1) ∧
    (∀ (b : Blob) (n : Nat), searchOutput b.name.data = some n →
      extract_page_number b = (n : Int) ∧ -1 < extract_page_number b) ∧
    (∀ c₁ c₂ : Json,
      sortBlobs [⟨"ocr/x/output-1-to-2.json", c₁⟩, ⟨"ocr/x/manifest.json", c₂⟩] =
        [⟨"ocr/x/manifest.json", c₂⟩, ⟨"ocr/x/output-1-to-2.json", c₁⟩] ∧
      sortBlobs [⟨"ocr/x/manifest.json", c₂⟩, ⟨"ocr/x/output-1-to-2.json", c₁⟩] =
        [⟨"ocr/x/manifest.json", c₂⟩, ⟨"ocr/x/output-1-to-2.json", c₁⟩]) := by
  refine ⟨fun l => List.sorted_insertionSort pageLe l, ?_, ?_, fun c₁ c₂ => ⟨rfl, rfl⟩⟩
  · intro b h
    unfold extract_page_number
    rw [h]
  · intro b n h
    have hb : extract_page_number b = (n : Int) := by
      unfold extract_page_number
      rw [h]
    refine ⟨hb, ?_⟩
    rw [hb]
    omega

/-- Witness for C1 at concrete blob names. -/
theorem C1_concat_order_ascending_witness :
    extract_page_number ⟨"ocr/x/manifest.json", Json.null⟩ = -1 ∧
    extract_page_number ⟨"ocr/x/output-3-to-4.json", Json.null⟩ = (3 : Int) :=
  ⟨C1_concat_order_ascending.2.1 ⟨"ocr/x/manifest.json", Json.null⟩ rfl,
   (C1_concat_order_ascending.2.2.1 ⟨"ocr/x/output-3-to-4.json", Json.null⟩ 3 rfl).1⟩

theorem filter_key_orderedInsert (k : Int) (b : Blob) :
    ∀ l : List Blob,
      (List.orderedInsert pageLe b l).filter (fun c => extract_page_number c == k) =
        if extract_page_number b == k then
          b :: l.filter (fun c => extract_page_number c == k)
        else l.filter (fun c => extract_page_number c == k)
  | [] => by
    by_cases h : extract_page_number b == k <;>
      simp [List.orderedInsert, List.filter_cons, h]
  | c :: cs => by
    by_cases hbc : pageLe b c
    · rw [List.orderedInsert, if_pos hbc]
      by_cases hb : (extract_page_number b == k) = true <;>
        simp [List.filter_cons, hb]
    · rw [List.orderedInsert, if_neg hbc]
      have hlt : extract_page_number c < extract_page_number b := by
        unfold pageLe at hbc
        omega
      have ih := filter_key_orderedInsert k b cs
      by_cases hb : (extract_page_number b == k) = true
      · have hc : (extract_page_number c == k) = false := by
          have hbk : extract_page_number b = k := by exact beq_iff_eq.mp hb
          simp only [beq_eq_false_iff_ne, ne_eq]
          omega
        simp [List.filter_cons, hb, hc, ih]
      · have hb' : (extract_page_number b == k) = false := by
          simp only [Bool.not_eq_true] at hb
          exact hb
        simp [List.filter_cons, hb', ih]

/-- C9: Python's `sorted` is stable, so blobs with equal order keys
(including the key `-1` shared by all unparseable names) are processed in
their original listing order: for every key, the equal-key blobs of the
sorted list are exactly those of the input, in the same order. -/
theorem C9_stable_tie_break (l : List Blob) (k : Int) :
    (sortBlobs l).filter (fun c => extract_page_number c == k) =
      l.filter (fun c => extract_page_number c == k) := by
  induction l with
  | nil => rfl
  | cons b bs ih =>
    show (List.orderedInsert pageLe b (List.insertionSort pageLe bs)).filter _ = _
    rw [filter_key_orderedInsert k b (List.insertionSort pageLe bs)]
    unfold sortBlobs at ih
    rw [ih, List.filter_cons]

/-- Content of the blob `ocr/x/output-1-to-2.json` in the end-to-end
example. -/
def helloContent : Json :=
  .obj [("responses", .arr [.obj [("fullTextAnnotation", .obj [("text", .str "Hello ")])]])]

/-- Content of the blob `ocr/x/output-3-to-4.json` in the end-to-end
example. -/
def worldContent : Json :=
  .obj [("responses", .arr [.obj [("fullTextAnnotation", .obj [("text", .str "World")])]])]

/-- C2: with exactly the blobs `ocr/x/output-1-to-2.json` (text
`"Hello "`) and `ocr/x/output-3-to-4.json` (text `"World"`) under the
prefix, `get_ocr_output_from_bucket` returns `"Hello World"`, in either
listing order. -/
theorem C2_end_to_end :
    get_ocr_output_from_bucket "gs://b/ocr/x/"
      [⟨"ocr/x/output-1-to-2.json", helloContent⟩,
       ⟨"ocr/x/output-3-to-4.json", worldContent⟩] = .ok "Hello World" ∧
    get_ocr_output_from_bucket "gs://b/ocr/x/"
      [⟨"ocr/x/output-3-to-4.json", worldContent⟩,
       ⟨"ocr/x/output-1-to-2.json", helloContent⟩] = .ok "Hello World" :=
  ⟨rfl, rfl⟩

/-- C3: when the listing under the prefix of the destination URI is
empty, `get_ocr_output_from_bucket` returns the empty string and no
error. -/
theorem C3_empty_listing (uri bn pfx : String) (bucket : List Blob)
    (hparse : parseGsUri uri = some (bn, pfx))
    (hempty : list_blobs bucket pfx = []) :
    get_ocr_output_from_bucket uri bucket = .ok "" := by
  unfold get_ocr_output_from_bucket
  rw [hparse]
  show collectText (sortBlobs (list_blobs bucket pfx)) "" = Except.ok ""
  rw [hempty]
  rfl

/-- Witness for C3: an empty bucket under `gs://b/p/`. -/
theorem C3_empty_listing_witness :
    get_ocr_output_from_bucket "gs://b/p/" ([] : List Blob) = .ok "" :=
  C3_empty_listing "gs://b/p/" "b" "p/" [] rfl rfl

/-- Well-typed page response for C4: a JSON object whose
`fullTextAnnotation` field, when present, is an object whose `text`
field, when present, is a string. -/
def wfPage (pr : Json) : Bool :=
  match pr with
  | .obj fs =>
    match lookupField fs "fullTextAnnotation" with
    | none => true
    | some (.obj afs) =>
      match lookupField afs "text" with
      | none => true
      | some (.str _) => true
      | some _ => false
    | some _ => false
  | _ => false

/-- The text the spec says one page response contributes: the `text`
value of its full-text field when fully present, the empty string
otherwise. -/
def specPageText (pr : Json) : String :=
  match pr with
  | .obj fs =>
    match lookupField fs "fullTextAnnotation" with
    | some (.obj afs) =>
      match lookupField afs "text" with
      | some (.str s) => s
      | _ => ""
    | _ => ""
  | _ => ""

/-- Concatenation of a list of strings in order. -/
def joinTexts : List String → String
  | [] => ""
  | s :: rest => s ++ joinTexts rest

theorem pageResponseText_wf (pr : Json) (h : wfPage pr = true) :
    pageResponseText pr = .ok (specPageText pr) := by
  cases pr with
  | obj fs =>
    simp only [wfPage] at h
    simp only [pageResponseText, specPageText]
    cases hf : lookupField fs "fullTextAnnotation" with
    | none => simp [hf]
    | some ann =>
      rw [hf] at h
      cases ann with
      | obj afs =>
        simp only [hf, annText]
        cases ht : lookupField afs "text" with
        | none => simp [ht]
        | some tv =>
          cases tv <;> simp_all
      | null => simp at h
      | bool b => simp at h
      | num n => simp at h
      | str s => simp at h
      | arr xs => simp at h
  | null => simp [wfPage] at h
  | bool b => simp [wfPage] at h
  | num n => simp [wfPage] at h
  | str s => simp [wfPage] at h
  | arr xs => simp [wfPage] at h

theorem concatResponses_wf :
    ∀ (prs : List Json) (acc : String), (∀ pr ∈ prs, wfPage pr = true) →
      concatResponses prs acc = .ok (acc ++ joinTexts (prs.map specPageText))
  | [], acc, _ => by simp [concatResponses, joinTexts]
  | pr :: rest, acc, h => by
    have hpr := pageResponseText_wf pr (h pr (List.mem_cons_self pr rest))
    have ih := concatResponses_wf rest (acc ++ specPageText pr)
      (fun q hq => h q (List.mem_cons_of_mem pr hq))
    unfold concatResponses
    rw [hpr]
    show concatResponses rest (acc ++ specPageText pr) = _
    rw [ih]
    simp [joinTexts, String.append_assoc]

/-- C4: a blob whose JSON lacks a `responses` field contributes no text
and no error; a well-typed page response lacking a full-text field (or
whose full-text field lacks a string `text`) contributes the empty
string; the inner loop returns exactly the concatenation of the present
text values in `responses`-array order. -/
theorem C4_missing_fields_ok :
    (∀ fs : List (String × Json), lookupField fs "responses" = none →
      blobToText (.obj fs) = .ok "") ∧
    (∀ pr : Json, wfPage pr = true → pageResponseText pr = .ok (specPageText pr)) ∧
    (∀ prs : List Json, (∀ pr ∈ prs, wfPage pr = true) →
      concatResponses prs "" = .ok (joinTexts (prs.map specPageText))) := by
  refine ⟨?_, pageResponseText_wf, ?_⟩
  · intro fs h
    simp only [blobToText]
    rw [h]
    rfl
  · intro prs h
    have := concatResponses_wf prs "" h
    simpa using this

/-- Witness for C4: a blob without `responses`, a page response without
`fullTextAnnotation`, and a full-text field without `text`. -/
theorem C4_missing_fields_ok_witness :
    blobToText (.obj [("foo", Json.null)]) = .ok "" ∧
    pageResponseText (.obj []) = .ok "" ∧
    concatResponses [.obj [("fullTextAnnotation", .obj [])]] "" = .ok "" :=
  ⟨C4_missing_fields_ok.1 [("foo", Json.null)] rfl,
   C4_missing_fields_ok.2.1 (.obj []) rfl,
   C4_missing_fields_ok.2.2 [.obj [("fullTextAnnotation", .obj [])]]
     (fun pr hpr => by rw [List.mem_singleton.mp hpr]; rfl)⟩

theorem orderedInsert_of_forall_le (b : Blob) :
    ∀ m : List Blob, (∀ x ∈ m, pageLe b x) → List.orderedInsert pageLe b m = b :: m
  | [], _ => rfl
  | c :: cs, h => by
    rw [List.orderedInsert, if_pos (h c (List.mem_cons_self c cs))]

theorem filter_orderedInsert_neg (p : Blob → Bool) (b : Blob) (hb : p b = false) :
    ∀ l : List Blob, (List.orderedInsert pageLe b l).filter p = l.filter p
  | [] => by simp [List.orderedInsert, List.filter_cons, hb]
  | c :: cs => by
    by_cases hbc : pageLe b c
    · rw [List.orderedInsert, if_pos hbc, List.filter_cons, hb]
      simp
    · rw [List.orderedInsert, if_neg hbc, List.filter_cons, List.filter_cons,
        filter_orderedInsert_neg p b hb cs]

theorem filter_orderedInsert_pos (p : Blob → Bool) (b : Blob) (hb : p b = true) :
    ∀ l : List Blob, List.Sorted pageLe l →
      (List.orderedInsert pageLe b l).filter p = List.orderedInsert pageLe b (l.filter p)
  | [], _ => by simp [List.orderedInsert, List.filter_cons, hb]
  | c :: cs, hs => by
    have hcs : ∀ x ∈ cs, pageLe c x := (List.sorted_cons.mp hs).1
    have hs' : List.Sorted pageLe cs := (List.sorted_cons.mp hs).2
    by_cases hbc : pageLe b c
    · rw [List.orderedInsert, if_pos hbc, List.filter_cons, hb, List.filter_cons]
      by_cases hc : p c = true
      · rw [hc]
        simp only [if_true]
        rw [List.orderedInsert, if_pos hbc]
      · rw [Bool.not_eq_true] at hc
        rw [hc]
        simp only [Bool.false_eq_true, if_false]
        rw [orderedInsert_of_forall_le b (cs.filter p)
          (fun x hx => Int.le_trans hbc (hcs x (List.mem_of_mem_filter hx)))]
        simp
    · rw [List.orderedInsert, if_neg hbc, List.filter_cons, List.filter_cons]
      by_cases hc : p c = true
      · rw [hc]
        simp only [if_true]
        rw [List.orderedInsert, if_neg hbc,
          filter_orderedInsert_pos p b hb cs hs']
      · rw [Bool.not_eq_true] at hc
        rw [hc]
        simp only [Bool.false_eq_true, if_false]
        exact filter_orderedInsert_pos p b hb cs hs'

theorem sortBlobs_filter (p : Blob → Bool) :
    ∀ l : List Blob, sortBlobs (l.filter p) = (sortBlobs l).filter p
  | [] => rfl
  | b :: bs => by
    show List.insertionSort pageLe ((b :: bs).filter p)
        = (List.orderedInsert pageLe b (List.insertionSort pageLe bs)).filter p
    rw [List.filter_cons]
    by_cases hb : p b = true
    · rw [hb]
      simp only [if_true]
      rw [List.insertionSort]
      have ih := sortBlobs_filter p bs
      unfold sortBlobs at ih
      rw [ih, filter_orderedInsert_pos p b hb (List.insertionSort pageLe bs)
        (List.sorted_insertionSort pageLe bs)]
    · rw [Bool.not_eq_true] at hb
      rw [hb]
      simp only [Bool.false_eq_true, if_false]
      have ih := sortBlobs_filter p bs
      unfold sortBlobs at ih
      rw [ih, filter_orderedInsert_neg p b hb (List.insertionSort pageLe bs)]

theorem collectText_skips_folders :
    ∀ (l : List Blob) (acc : String),
      collectText l acc = collectText (l.filter (fun b => !(strEndsWith b.name "/"))) acc
  | [], _ => rfl
  | b :: rest, acc => by
    rw [List.filter_cons]
    by_cases hend : strEndsWith b.name "/" = true
    · rw [collectText, if_pos hend, hend]
      simp only [Bool.not_true, Bool.false_eq_true, if_false]
      exact collectText_skips_folders rest acc
    · rw [Bool.not_eq_true] at hend
      rw [collectText, if_neg (by rw [hend]; exact Bool.false_ne_true), hend]
      simp only [Bool.not_false, if_true]
      rw [collectText, if_neg (by rw [hend]; exact Bool.false_ne_true)]
      cases hbt : blobToText b.content with
      | error e => rfl
      | ok t => exact collectText_skips_folders rest (acc ++ t)

/-- C5: blobs whose names end in the path separator `/` contribute no
text, whatever their content: the result of `get_ocr_output_from_bucket`
is unchanged when every folder-marker blob is removed from the bucket. -/
theorem C5_folder_markers_excluded (uri : String) (bucket : List Blob) :
    get_ocr_output_from_bucket uri bucket =
      get_ocr_output_from_bucket uri
        (bucket.filter (fun b => !(strEndsWith b.name "/"))) := by
  unfold get_ocr_output_from_bucket
  cases hp : parseGsUri uri with
  | none => rfl
  | some pr =>
    obtain ⟨bn, pfx⟩ := pr
    show collectText (sortBlobs (list_blobs bucket pfx)) "" =
      collectText (sortBlobs (list_blobs
        (bucket.filter (fun b => !(strEndsWith b.name "/"))) pfx)) ""
    have h1 : list_blobs (bucket.filter (fun b => !(strEndsWith b.name "/"))) pfx
        = (list_blobs bucket pfx).filter (fun b => !(strEndsWith b.name "/")) := by
      unfold list_blobs
      rw [List.filter_filter, List.filter_filter]
      exact List.filter_congr (fun b _ => Bool.and_comm _ _)
    rw [h1, sortBlobs_filter]
    exact collectText_skips_folders (sortBlobs (list_blobs bucket pfx)) ""

theorem foldl_delete_eq_filter :
    ∀ (l st : List Blob),
      l.foldl (fun st b => deleteBlobNamed st b.name) st =
        st.filter (fun b => !(l.any (fun c => c.name == b.name)))
  | [], st => by
    simp [List.any_nil]
  | c :: l, st => by
    rw [List.foldl_cons, foldl_delete_eq_filter l (deleteBlobNamed st c.name)]
    unfold deleteBlobNamed
    rw [List.filter_filter]
    refine List.filter_congr (fun b _ => ?_)
    rw [List.any_cons]
    cases h1 : (c.name == b.name) <;>
      cases h2 : l.any (fun d => d.name == b.name) <;> simp [h1, h2]

/-- C6: `clear_ocr_output_folder` deletes exactly the objects whose names
start with the prefix and leaves the rest of the bucket unchanged; with
no matching object it is a no-op. -/
theorem C6_cleanup_exact (bucket : List Blob) (pfx : String) :
    clear_ocr_output_folder bucket pfx =
      bucket.filter (fun b => !(strStartsWith b.name pfx)) ∧
    (list_blobs bucket pfx = [] → clear_ocr_output_folder bucket pfx = bucket) := by
  have h1 : clear_ocr_output_folder bucket pfx =
      bucket.filter (fun b => !(strStartsWith b.name pfx)) := by
    unfold clear_ocr_output_folder
    rw [foldl_delete_eq_filter (list_blobs bucket pfx) bucket]
    refine List.filter_congr (fun b hb => ?_)
    congr 1
    cases h : strStartsWith b.name pfx with
    | true =>
      refine List.any_eq_true.mpr ⟨b, ?_, by simp⟩
      exact List.mem_filter.mpr ⟨hb, h⟩
    | false =>
      refine List.any_eq_false.mpr (fun c hc => ?_)
      have hcpfx : strStartsWith c.name pfx = true := (List.mem_filter.mp hc).2
      intro hcb
      rw [beq_iff_eq.mp hcb] at hcpfx
      rw [h] at hcpfx
      exact absurd hcpfx (by decide)
  refine ⟨h1, fun hempty => ?_⟩
  rw [h1]
  refine List.filter_eq_self.mpr (fun b hb => ?_)
  cases h : strStartsWith b.name pfx with
  | true =>
    exfalso
    have : b ∈ list_blobs bucket pfx := List.mem_filter.mpr ⟨hb, h⟩
    rw [hempty] at this
    exact List.not_mem_nil b this
  | false => simp [h]

/-- Witness for C6 at a bucket with no object under the prefix. -/
theorem C6_cleanup_exact_witness :
    clear_ocr_output_folder [⟨"a", Json.null⟩] "b" = [⟨"a", Json.null⟩] :=
  (C6_cleanup_exact [⟨"a", Json.null⟩] "b").2 rfl

/-- C7: the output prefix is `ocr/` followed by the generated identifier,
and the cleanup of the destination bucket at exactly that prefix is the
only cleanup call and happens before the batch request is submitted. -/
theorem C7_cleanup_before_submit (bucket nm output_bucket unique_id : String)
    (timeout : Nat) :
    ((async_document_extract bucket nm output_bucket unique_id timeout).filter
        isCleanupEvent = [Event.cleanup output_bucket ("ocr/" ++ unique_id)]) ∧
    ∃ i j : Nat, i < j ∧
      (async_document_extract bucket nm output_bucket unique_id timeout)[i]? =
        some (Event.cleanup output_bucket ("ocr/" ++ unique_id)) ∧
      ∃ rq : AsyncRequest,
        (async_document_extract bucket nm output_bucket unique_id timeout)[j]? =
          some (Event.submit rq) :=
  ⟨rfl, 0, 1, Nat.zero_lt_one, rfl, _, rfl⟩

/-- C8: the trace submits exactly one batch request, carrying full-text
detection as the sole feature, the source `gs://bucket/name` as a PDF
input, the destination `gs://output_bucket/ocr/<id>/` as output location
and batch size 2; exactly one wait follows the submission, bounded by
`timeout`, whose default is 420 seconds. -/
theorem C8_single_submit_and_wait (bucket nm output_bucket unique_id : String)
    (timeout : Nat) :
    ((async_document_extract bucket nm output_bucket unique_id timeout).filter
        isSubmitEvent =
      [Event.submit
        { features := [FeatureType.documentTextDetection]
          inputUri := "gs://" ++ bucket ++ "/" ++ nm
          mimeType := "application/pdf"
          outputUri := "gs://" ++ output_bucket ++ "/" ++ ("ocr/" ++ unique_id) ++ "/"
          batchSize := 2 }]) ∧
    ((async_document_extract bucket nm output_bucket unique_id timeout).filter
        isWaitEvent = [Event.wait timeout]) ∧
    (∃ i j : Nat, i < j ∧
      (∃ rq : AsyncRequest,
        (async_document_extract bucket nm output_bucket unique_id timeout)[i]? =
          some (Event.submit rq)) ∧
      (async_document_extract bucket nm output_bucket unique_id timeout)[j]? =
        some (Event.wait timeout)) ∧
    ((async_document_extract bucket nm output_bucket unique_id).filter
        isWaitEvent = [Event.wait 420]) :=
  ⟨rfl, rfl, ⟨1, 2, Nat.one_lt_two, ⟨_, rfl⟩, rfl⟩, rfl⟩

theorem takeUntil_append_stop (stop : Char) :
    ∀ l₁ : List Char, (∀ c ∈ l₁, c ≠ stop) → ∀ l₂ : List Char,
      takeUntil stop (l₁ ++ stop :: l₂) = (l₁, stop :: l₂)
  | [], _, l₂ => by simp [takeUntil]
  | c :: cs, h, l₂ => by
    have hc : ¬ c = stop := h c (List.mem_cons_self c cs)
    rw [List.cons_append, takeUntil, if_neg hc,
      takeUntil_append_stop stop cs (fun d hd => h d (List.mem_cons_of_mem c hd)) l₂]

theorem takeUntil_no_stop (stop : Char) :
    ∀ l : List Char, (∀ c ∈ l, c ≠ stop) → takeUntil stop l = (l, [])
  | [], _ => rfl
  | c :: cs, h => by
    have hc : ¬ c = stop := h c (List.mem_cons_self c cs)
    rw [takeUntil, if_neg hc,
      takeUntil_no_stop stop cs (fun d hd => h d (List.mem_cons_of_mem c hd))]

/-- C10: `get_ocr_output_from_bucket` assumes its URI argument matches
`gs://<bucket>/<non-empty path>`; under that precondition the regex match
succeeds and the listing prefix is the path part, while any argument the
regex rejects makes the function raise (an attribute access on the failed
match) instead of returning a string. -/
theorem C10_uri_precondition :
    (∀ bn p : String, bn.data ≠ [] → (∀ c ∈ bn.data, c ≠ '/') →
      p.data ≠ [] → (∀ c ∈ p.data, c ≠ '\n') →
      parseGsUri ("gs://" ++ bn ++ "/" ++ p) = some (bn, p)) ∧
    (∀ (s : String) (bucket : List Blob), parseGsUri s = none →
      get_ocr_output_from_bucket s bucket =
        .error "AttributeError: no attribute group") := by
  constructor
  · intro bn p hbn hbn2 hp hp2
    unfold parseGsUri
    have hdata : ("gs://" ++ bn ++ "/" ++ p).data
        = 'g' :: 's' :: ':' :: '/' :: '/' :: (bn.data ++ '/' :: p.data) := by
      rw [String.data_append, String.data_append, String.data_append]
      rw [show "gs://".data = ['g', 's', ':', '/', '/'] from rfl,
        show "/".data = ['/'] from rfl]
      simp [List.append_assoc]
    rw [hdata]
    show parseAfterScheme (bn.data ++ '/' :: p.data) = some (bn, p)
    unfold parseAfterScheme
    rw [takeUntil_append_stop '/' bn.data hbn2 p.data]
    show (if bn.data = [] then none
      else if (takeUntil '\n' p.data).fst = [] then none
      else some (String.mk bn.data, String.mk (takeUntil '\n' p.data).fst)) = some (bn, p)
    rw [if_neg hbn, takeUntil_no_stop '\n' p.data hp2]
    show (if p.data = [] then none else some (String.mk bn.data, String.mk p.data))
      = some (bn, p)
    rw [if_neg hp]
  · intro s bucket h
    unfold get_ocr_output_from_bucket
    rw [h]

/-- Witness for C10: a well-formed URI with a multi-segment path, and a
string the regex rejects. -/
theorem C10_uri_precondition_witness :
    parseGsUri ("gs://" ++ "b" ++ "/" ++ "p/q") = some ("b", "p/q") ∧
    get_ocr_output_from_bucket "gs://" ([] : List Blob) =
      .error "AttributeError: no attribute group" :=
  ⟨C10_uri_precondition.1 "b" "p/q" (by decide) (by decide) (by decide) (by decide),
   C10_uri_precondition.2 "gs://" [] rfl⟩
